import Mathlib

/-!
Shallow embedding of the recipe validator (`validate_recipes.py`).

The script walks a directory of JSON recipe files, parses each one,
dispatches on the `type` field to a per-type checking function, collects
error and warning strings, and finally succeeds iff no error was collected.

Modelling choices:
* A parsed JSON value is the inductive `Json` below.  Python distinguishes
  `int` and `float`; finite float values are modelled as rationals.  Object
  keys are strings and, coming from a Python `dict` via `json.load`, are
  unique within an object.
* The mutable validator object (`self.errors`, `self.warnings`,
  `self.validated_files`) is the explicit state `VState`; every method that
  mutates it becomes a function taking and returning a `VState`.
* The result of opening and `json.load`-ing one file is a `FileInput`:
  either a parsed document, a `json.JSONDecodeError` (with its rendered
  message), or any other exception raised while reading (with its message).
* Exceptions that Python raises *inside* the checking code itself (looking
  up an unhashable `type` value in the dispatch dict, or running the
  pattern/key cross-check when `key` is not a dict) are modelled explicitly
  with `PyExc`; `validate_recipe_file` catches them exactly where the
  `try/except` of the source does.
* Printing is ignored: `print` does not change the validator state.
-/

/-- A parsed JSON document as produced by Python's `json.load`. -/
inductive Json where
  | null : Json
  | bool : Bool → Json
  | int : Int → Json
  | float : Rat → Json
  | str : String → Json
  | arr : List Json → Json
  | obj : List (String × Json) → Json

/-- Membership test `k in d` for a Python dict with string keys. -/
def hasKey (fields : List (String × Json)) (k : String) : Bool :=
  fields.any (fun p => p.1 == k)

/-- Lookup `d.get(k)` / `d[k]` for a Python dict with string keys
(keys are unique, so the first match is the value). -/
def getKey? (fields : List (String × Json)) (k : String) : Option Json :=
  (fields.find? (fun p => p.1 == k)).map (fun p => p.2)

/-- `isinstance(v, (int, float))` in Python: `bool` is a subclass of `int`,
so booleans count as numeric. -/
def isNumeric : Json → Bool
  | .bool _ => true
  | .int _ => true
  | .float _ => true
  | _ => false

/-- The numeric value used in comparisons such as `count <= 0`
(`False == 0`, `True == 1`). -/
def numVal : Json → Rat
  | .bool b => if b then 1 else 0
  | .int n => (n : Rat)
  | .float q => q
  | _ => 0

/-- `type(v).__name__` in Python. -/
def typeName : Json → String
  | .null => "NoneType"
  | .bool _ => "bool"
  | .int _ => "int"
  | .float _ => "float"
  | .str _ => "str"
  | .arr _ => "list"
  | .obj _ => "dict"

mutual

/-- Python `repr` of a JSON value (used for elements nested inside
containers).  Rendering of `float` literals is a stand-in: the value is
printed as a rational, not in Python float syntax; no theorem below
depends on the rendering of a float. -/
def pyReprV : Json → String
  | .null => "None"
  | .bool b => if b then "True" else "False"
  | .int n => toString n
  | .float q => toString q
  | .str s => "\x27" ++ s ++ "\x27"
  | .arr xs => "[" ++ pyReprElems xs ++ "]"
  | .obj fs => "\x7b" ++ pyReprFields fs ++ "\x7d"

/-- Comma-separated `repr`s of the elements of a Python list. -/
def pyReprElems : List Json → String
  | [] => ""
  | [x] => pyReprV x
  | x :: xs => pyReprV x ++ ", " ++ pyReprElems xs

/-- Comma-separated `repr`s of the items of a Python dict. -/
def pyReprFields : List (String × Json) → String
  | [] => ""
  | [p] => "\x27" ++ p.1 ++ "\x27: " ++ pyReprV p.2
  | p :: fs => "\x27" ++ p.1 ++ "\x27: " ++ pyReprV p.2 ++ ", " ++ pyReprFields fs

end

/-- Python `str` of a JSON value, as interpolated into an f-string
(strings appear without quotes at top level). -/
def pyStr : Json → String
  | .null => "None"
  | .bool b => if b then "True" else "False"
  | .int n => toString n
  | .float q => toString q
  | .str s => s
  | .arr xs => "[" ++ pyReprElems xs ++ "]"
  | .obj fs => "\x7b" ++ pyReprFields fs ++ "\x7d"

/-- The validator's mutable state: `self.errors`, `self.warnings` and
`self.validated_files`. -/
structure VState where
  errors : List String
  warnings : List String
  validated_files : Nat
  deriving DecidableEq

/-- The freshly constructed validator. -/
def VState.init : VState := ⟨[], [], 0⟩

/-- `add_error`: append the formatted error line (severity tag, path,
message) to `self.errors`. -/
def add_error (st : VState) (path message : String) : VState :=
  { st with errors := st.errors ++ ["[ERROR] " ++ path ++ ": " ++ message] }

/-- `add_warning`: append the formatted warning line (severity tag, path,
message) to `self.warnings`. -/
def add_warning (st : VState) (path message : String) : VState :=
  { st with warnings := st.warnings ++ ["[WARNING] " ++ path ++ ": " ++ message] }

/-- An exception raised inside the checking code and caught by the broad
`except Exception` handler of `validate_recipe_file`. -/
inductive PyExc where
  | unhashableType (ty : String)
  | notIterable (ty : String)
  | noKeysAttr (ty : String)
  deriving DecidableEq

/-- `str(e)` for the exceptions modelled above. -/
def PyExc.render : PyExc → String
  | .unhashableType ty => "unhashable type: \x27" ++ ty ++ "\x27"
  | .notIterable ty => "argument of type \x27" ++ ty ++ "\x27 is not iterable"
  | .noKeysAttr ty => "\x27" ++ ty ++ "\x27 object has no attribute \x27keys\x27"

/-- Outcome of opening one file and running `json.load` on it. -/
inductive FileInput where
  | parsed (doc : Json)
  | parseError (msg : String)
  | readError (msg : String)

/-- `validate_ingredient`: a single ingredient dict must have at least one
of `item` / `tag` / `fluid`; more than one of them is only a warning. -/
def validate_ingredient (st : VState) (path : String) (ingredient : List (String × Json)) : VState :=
  let has_item := hasKey ingredient "item"
  let has_tag := hasKey ingredient "tag"
  let has_fluid := hasKey ingredient "fluid"
  let st :=
    if has_item || has_tag || has_fluid then st
    else add_error st path "Ingredient must have \x27item\x27, \x27tag\x27, or \x27fluid\x27 field"
  let type_count := (if has_item then 1 else 0) + (if has_tag then 1 else 0) + (if has_fluid then 1 else 0)
  if 1 < type_count then add_warning st path "Ingredient has multiple type fields (item/tag/fluid)"
  else st

/-- `validate_ingredients`: the field may be a single dict or a list of
dicts; an empty list is a warning; non-dict list elements are errors. -/
def validate_ingredients (st : VState) (path : String) (ingredients : Json) : VState :=
  match ingredients with
  | .arr xs =>
    let st := if xs.isEmpty then add_warning st path "Ingredients array is empty" else st
    xs.foldl
      (fun s ing =>
        match ing with
        | .obj fields => validate_ingredient s path fields
        | _ => add_error s path "Ingredient must be a JSON object")
      st
  | .obj fields => validate_ingredient st path fields
  | _ => add_error st path "Ingredients must be a JSON object or array"

/-- `validate_result`: a result must be a dict holding `item` or `fluid`;
a numeric non-positive `count` or `amount` is an error (the two checks are
independent). -/
def validate_result (st : VState) (path : String) (result : Json) : VState :=
  match result with
  | .obj fields =>
    let st :=
      if hasKey fields "item" || hasKey fields "fluid" then st
      else add_error st path "Result must have \x27item\x27 or \x27fluid\x27 field"
    let st :=
      match getKey? fields "count" with
      | some count =>
        if isNumeric count && decide (numVal count ≤ 0) then
          add_error st path ("Result count must be positive, got: " ++ pyStr count)
        else st
      | none => st
    match getKey? fields "amount" with
    | some amount =>
      if isNumeric amount && decide (numVal amount ≤ 0) then
        add_error st path ("Result amount must be positive, got: " ++ pyStr amount)
      else st
    | none => st
  | _ => add_error st path "Result must be a JSON object"

/-- `validate_results`: an empty results list is a warning; each element
must be a dict and is then checked by `validate_result`. -/
def validate_results (st : VState) (path : String) (results : List Json) : VState :=
  let st := if results.isEmpty then add_warning st path "Results array is empty" else st
  results.foldl
    (fun s r =>
      match r with
      | .obj _ => validate_result s path r
      | _ => add_error s path "Result must be a JSON object")
    st

/-- First-occurrence-order deduplication (characters already in `seen` are
dropped): used to pick one definite enumeration of the Python set
`used_keys`.  (The *content* of the set is determined by the input; Python
only leaves the iteration *order* unspecified.) -/
def dedupFirst (seen : List Char) : List Char → List Char
  | [] => []
  | c :: cs => if seen.contains c then dedupFirst seen cs else c :: dedupFirst (c :: seen) cs

/-- The characters contributed to `used_keys` by the rows, rows in order,
non-string rows skipped. -/
def rowChars : List Json → List Char
  | [] => []
  | .str s :: rest => s.toList ++ rowChars rest
  | _ :: rest => rowChars rest

/-- The set `used_keys` built by `validate_pattern`, enumerated in first
occurrence order. -/
def usedKeysOf (pattern : List Json) : List Char :=
  dedupFirst [] ((rowChars pattern).filter (fun c => c != ' '))

/-- Python's `char not in key` for a one-character string `char`, where
`key` came from the `recipe.get` lookup (default: empty dict) and so may
be any JSON value:
dicts test key membership, strings test substring (here: character)
membership, lists test element equality (a string equals only an equal
string); any other type raises `TypeError`. -/
def charNotInKey (key : Json) (c : Char) : Except PyExc Bool :=
  match key with
  | .obj fields => .ok (!(hasKey fields c.toString))
  | .str s => .ok (!(s.toList.contains c))
  | .arr xs =>
    .ok (!(xs.any (fun x =>
      match x with
      | .str t => t == c.toString
      | _ => false)))
  | other => .error (.notIterable (typeName other))

/-- The loop `for char in used_keys: if char not in key: add_error ...`,
iterating the set in the order given by `used`. -/
def usedKeysLoop (st : VState) (path : String) (key : Json) : List Char → VState × Option PyExc
  | [] => (st, none)
  | c :: cs =>
    match charNotInKey key c with
    | .error e => (st, some e)
    | .ok true =>
      usedKeysLoop
        (add_error st path ("Pattern uses key \x27" ++ c.toString ++ "\x27 but it\x27s not defined in \x27key\x27 object"))
        path key cs
    | .ok false => usedKeysLoop st path key cs

/-- The loop `for defined_key in key.keys(): ...` warning about unused
one-character keys; `key.keys()` raises `AttributeError` when `key` is not
a dict. -/
def unusedKeysLoop (st : VState) (path : String) (key : Json) (used : List Char) : VState × Option PyExc :=
  match key with
  | .obj fields =>
    (fields.foldl
      (fun s p =>
        match p.1.toList with
        | [c] =>
          if used.contains c then s
          else add_warning s path ("Key \x27" ++ p.1 ++ "\x27 is defined but never used in pattern")
        | _ => s)
      st, none)
  | other => (st, some (.noKeysAttr (typeName other)))

/-- Continuation after the `used_keys` loop: an exception that escaped the
membership loop propagates, otherwise the unused-key warning loop runs. -/
def after_used_loop (path : String) (key : Json) (used : List Char) :
    VState × Option PyExc → VState × Option PyExc
  | (st, some e) => (st, some e)
  | (st, none) => unusedKeysLoop st path key used

/-- Body of `validate_pattern` with the iteration order of the Python set
`used_keys` made explicit (`used`); the source's behaviour corresponds to
`used` being *some* enumeration of that set. -/
def validate_pattern_core (st : VState) (path : String) (recipe : List (String × Json)) (pattern : List Json) (used : List Char) : VState × Option PyExc :=
  let key := (getKey? recipe "key").getD (.obj [])
  if pattern.isEmpty then (add_error st path "Pattern array is empty", none)
  else
    let st :=
      pattern.foldl
        (fun s row =>
          match row with
          | .str _ => s
          | _ => add_error s path "Pattern row must be a string")
        st
    after_used_loop path key used (usedKeysLoop st path key used)

/-- `validate_pattern`: the caller has already checked that `pattern` is
present and a list, and passes its rows; the set `used_keys` is iterated
in first occurrence order (one deterministic choice of the order Python
leaves unspecified). -/
def validate_pattern (st : VState) (path : String) (recipe : List (String × Json)) (pattern : List Json) : VState × Option PyExc :=
  validate_pattern_core st path recipe pattern (usedKeysOf pattern)

/-- The tail of `validate_mechanical_crafting` after the pattern block:
the `result` check and the `acceptMirrored` shape check. -/
def mechanical_crafting_tail (st : VState) (path : String) (recipe : List (String × Json)) : VState :=
  let st :=
    match getKey? recipe "result" with
    | none => add_error st path "Mechanical crafting missing \x27result\x27 field"
    | some r => validate_result st path r
  match getKey? recipe "acceptMirrored" with
  | some (.bool _) => st
  | some _ => add_error st path "Field \x27acceptMirrored\x27 must be a boolean"
  | none => st

/-- `validate_mechanical_crafting`; an exception escaping the pattern
cross-check skips the rest of the method and propagates to the caller. -/
def validate_mechanical_crafting (st : VState) (path : String) (recipe : List (String × Json)) : VState × Option PyExc :=
  let st :=
    match getKey? recipe "key" with
    | none => add_error st path "Mechanical crafting missing \x27key\x27 field"
    | some (.obj _) => st
    | some _ => add_error st path "Field \x27key\x27 must be a JSON object"
  match getKey? recipe "pattern" with
  | none => (mechanical_crafting_tail (add_error st path "Mechanical crafting missing \x27pattern\x27 field") path recipe, none)
  | some (.arr rows) =>
    match validate_pattern st path recipe rows with
    | (st, some e) => (st, some e)
    | (st, none) => (mechanical_crafting_tail st path recipe, none)
  | some _ => (mechanical_crafting_tail (add_error st path "Field \x27pattern\x27 must be a JSON array") path recipe, none)

/-- `validate_cutting`. -/
def validate_cutting (st : VState) (path : String) (recipe : List (String × Json)) : VState :=
  let st :=
    match getKey? recipe "ingredients" with
    | none => add_error st path "Cutting recipe missing \x27ingredients\x27 field"
    | some ings => validate_ingredients st path ings
  let st :=
    match getKey? recipe "results" with
    | none => add_error st path "Cutting recipe missing \x27results\x27 field"
    | some (.arr rs) => validate_results st path rs
    | some _ => add_error st path "Field \x27results\x27 must be a JSON array"
  match getKey? recipe "processingTime" with
  | some t => if isNumeric t then st else add_error st path "Field \x27processingTime\x27 must be a number"
  | none => st

/-- Membership of `heat` in the fixed three-string heat enum (a JSON
value equals one of these Python strings only when it is that string). -/
def isValidHeat : Json → Bool
  | .str s => s == "none" || s == "heated" || s == "superheated"
  | _ => false

/-- `validate_mixing`. -/
def validate_mixing (st : VState) (path : String) (recipe : List (String × Json)) : VState :=
  let st :=
    match getKey? recipe "ingredients" with
    | none => add_error st path "Mixing recipe missing \x27ingredients\x27 field"
    | some ings => validate_ingredients st path ings
  let st :=
    match getKey? recipe "results" with
    | none => add_error st path "Mixing recipe missing \x27results\x27 field"
    | some (.arr rs) => validate_results st path rs
    | some _ => add_error st path "Field \x27results\x27 must be a JSON array"
  match getKey? recipe "heatRequirement" with
  | some heat => if isValidHeat heat then st else add_error st path ("Invalid heatRequirement: " ++ pyStr heat)
  | none => st

/-- `validate_sequenced_assembly`. -/
def validate_sequenced_assembly (st : VState) (path : String) (recipe : List (String × Json)) : VState :=
  let st :=
    ["ingredient", "transitionalItem", "sequence", "results", "loops"].foldl
      (fun s f =>
        if hasKey recipe f then s
        else add_error s path ("Sequenced assembly missing \x27" ++ f ++ "\x27 field"))
      st
  match getKey? recipe "sequence" with
  | some (.arr _) => st
  | some _ => add_error st path "Field \x27sequence\x27 must be a JSON array"
  | none => st

/-- `validate_filling`. -/
def validate_filling (st : VState) (path : String) (recipe : List (String × Json)) : VState :=
  let st := if hasKey recipe "ingredients" then st else add_error st path "Filling recipe missing \x27ingredients\x27 field"
  if hasKey recipe "results" then st else add_error st path "Filling recipe missing \x27results\x27 field"

/-- `validate_emptying`. -/
def validate_emptying (st : VState) (path : String) (recipe : List (String × Json)) : VState :=
  let st := if hasKey recipe "ingredients" then st else add_error st path "Emptying recipe missing \x27ingredients\x27 field"
  if hasKey recipe "results" then st else add_error st path "Emptying recipe missing \x27results\x27 field"

/-- `validate_pressing`. -/
def validate_pressing (st : VState) (path : String) (recipe : List (String × Json)) : VState :=
  let st := if hasKey recipe "ingredients" then st else add_error st path "Pressing recipe missing \x27ingredients\x27 field"
  if hasKey recipe "results" then st else add_error st path "Pressing recipe missing \x27results\x27 field"

/-- `validate_deploying`. -/
def validate_deploying (st : VState) (path : String) (recipe : List (String × Json)) : VState :=
  let st := if hasKey recipe "ingredients" then st else add_error st path "Deploying recipe missing \x27ingredients\x27 field"
  if hasKey recipe "results" then st else add_error st path "Deploying recipe missing \x27results\x27 field"

/-- `validate_vanilla_crafting`. -/
def validate_vanilla_crafting (st : VState) (path : String) (recipe : List (String × Json)) : VState :=
  if hasKey recipe "result" then st else add_error st path "Vanilla crafting missing \x27result\x27 field"

/-- The checking function bound to one known discriminant value. -/
inductive VTag where
  | mechanicalCrafting | cutting | mixing | sequencedAssembly
  | filling | emptying | pressing | deploying | vanillaCrafting
  deriving DecidableEq

/-- `validators.get(recipe_type)`: the dispatch dict lookup.  Looking up an
unhashable value (a list or a dict) raises `TypeError`; the ten known keys
are strings, so any other hashable value simply misses. -/
def validators_get (t : Json) : Except PyExc (Option VTag) :=
  match t with
  | .arr _ => .error (.unhashableType "list")
  | .obj _ => .error (.unhashableType "dict")
  | .str "create:mechanical_crafting" => .ok (some .mechanicalCrafting)
  | .str "create:cutting" => .ok (some .cutting)
  | .str "create:mixing" => .ok (some .mixing)
  | .str "create:sequenced_assembly" => .ok (some .sequencedAssembly)
  | .str "create:filling" => .ok (some .filling)
  | .str "create:emptying" => .ok (some .emptying)
  | .str "create:pressing" => .ok (some .pressing)
  | .str "create:deploying" => .ok (some .deploying)
  | .str "minecraft:crafting_shaped" => .ok (some .vanillaCrafting)
  | .str "minecraft:crafting_shapeless" => .ok (some .vanillaCrafting)
  | _ => .ok none

/-- `validator(str(relative_path), recipe)`: run the dispatched checking
function; only mechanical crafting can let an exception escape. -/
def runValidator : VTag → VState → String → List (String × Json) → VState × Option PyExc
  | .mechanicalCrafting, st, path, recipe => validate_mechanical_crafting st path recipe
  | .cutting, st, path, recipe => (validate_cutting st path recipe, none)
  | .mixing, st, path, recipe => (validate_mixing st path recipe, none)
  | .sequencedAssembly, st, path, recipe => (validate_sequenced_assembly st path recipe, none)
  | .filling, st, path, recipe => (validate_filling st path recipe, none)
  | .emptying, st, path, recipe => (validate_emptying st path recipe, none)
  | .pressing, st, path, recipe => (validate_pressing st path recipe, none)
  | .deploying, st, path, recipe => (validate_deploying st path recipe, none)
  | .vanillaCrafting, st, path, recipe => (validate_vanilla_crafting st path recipe, none)

/-- `validator(str(relative_path), recipe)` plus the enclosing `except
Exception` handler for an exception the checking function lets escape. -/
def dispatch_tag (st : VState) (path : String) (fields : List (String × Json)) (tag : VTag) : VState :=
  match runValidator tag st path fields with
  | (st2, none) => st2
  | (st2, some e) => add_error st2 path ("Unexpected error: " ++ e.render)

/-- The dispatch on the type value: `validators.get(recipe_type)` (which
may itself raise, caught by the same handler), then either the matching
checking function or the unknown-type warning. -/
def dispatch_type (st : VState) (path : String) (fields : List (String × Json)) (t : Json) : VState :=
  match validators_get t with
  | .error e => add_error st path ("Unexpected error: " ++ e.render)
  | .ok none => add_warning st path ("Unknown recipe type: " ++ pyStr t)
  | .ok (some tag) => dispatch_tag st path fields tag

/-- The checks run on a successfully parsed document: root must be a dict,
`type` must be present, then dispatch. -/
def handle_doc (st : VState) (path : String) (doc : Json) : VState :=
  match doc with
  | .obj fields =>
    (match getKey? fields "type" with
     | none => add_error st path "Missing required field: \x27type\x27"
     | some t => dispatch_type st path fields t)
  | _ => add_error st path "Root element is not a JSON object"

/-- The `try` block of `validate_recipe_file`: parse outcome handling,
then the document checks; the two `except` clauses turn a parse failure or
any other exception into a single error diagnostic. -/
def validate_recipe_file_try (st : VState) (path : String) (input : FileInput) : VState :=
  match input with
  | .parseError m => add_error st path ("Failed to parse JSON: " ++ m)
  | .readError m => add_error st path ("Unexpected error: " ++ m)
  | .parsed doc => handle_doc st path doc

/-- `validate_recipe_file`: count the file (`self.validated_files += 1`
runs before the `try`), then run the guarded body. -/
def validate_recipe_file (st : VState) (path : String) (input : FileInput) : VState :=
  validate_recipe_file_try { st with validated_files := st.validated_files + 1 } path input

/-- `validate_all`: the run is abstracted over whether the root directory
exists and over the (ordered) list of discovered files, each given with its
path string and load outcome.  Returns the final state and the boolean the
method returns (`len(self.errors) == 0`, or `False` when the directory is
missing). -/
def validate_all (rootPath : String) (rootExists : Bool) (files : List (String × FileInput)) : VState × Bool :=
  if rootExists then
    let st := files.foldl (fun s f => validate_recipe_file s f.1 f.2) VState.init
    (st, st.errors.length == 0)
  else
    (add_error VState.init "Global" ("Recipes directory does not exist: " ++ rootPath), false)

/-- `main`: `exit(0 if success else 1)`. -/
def mainExitCode (rootPath : String) (rootExists : Bool) (files : List (String × FileInput)) : Nat :=
  if (validate_all rootPath rootExists files).2 then 0 else 1

/-- A Python value is hashable (usable as a dict lookup key) unless it is a
list or a dict. -/
def pyHashable : Json → Bool
  | .arr _ => false
  | .obj _ => false
  | _ => true

/-- The shape shared by every checking function: it only appends a fixed
batch of error and warning lines (determined by its non-state arguments)
and leaves the file counter alone. -/
def Emits (f : VState → VState) : Prop :=
  ∃ es ws, ∀ st : VState,
    f st = ⟨st.errors ++ es, st.warnings ++ ws, st.validated_files⟩

/-- Same shape for the functions that can also let an exception escape:
the escaping exception (if any) does not depend on the incoming state. -/
def EmitsP (f : VState → VState × Option PyExc) : Prop :=
  ∃ es ws exc, ∀ st : VState,
    f st = (⟨st.errors ++ es, st.warnings ++ ws, st.validated_files⟩, exc)

theorem emits_of_frame {f : VState → VState}
    (h : ∀ st : VState, f st = ⟨st.errors ++ (f VState.init).errors,
      st.warnings ++ (f VState.init).warnings, st.validated_files⟩) : Emits f :=
  ⟨(f VState.init).errors, (f VState.init).warnings, h⟩

theorem emits_id : Emits (fun st => st) :=
  ⟨[], [], fun st => by cases st; simp⟩

theorem emits_add_error (path m : String) : Emits (fun st => add_error st path m) :=
  ⟨["[ERROR] " ++ path ++ ": " ++ m], [], fun st => by cases st; simp [add_error]⟩

theorem emits_add_warning (path m : String) : Emits (fun st => add_warning st path m) :=
  ⟨[], ["[WARNING] " ++ path ++ ": " ++ m], fun st => by cases st; simp [add_warning]⟩

theorem emits_seq {f g : VState → VState} (hf : Emits f) (hg : Emits g) :
    Emits (fun st => g (f st)) := by
  obtain ⟨e1, w1, h1⟩ := hf
  obtain ⟨e2, w2, h2⟩ := hg
  exact ⟨e1 ++ e2, w1 ++ w2, fun st => by simp [h1, h2]⟩

theorem emits_ite (c : Prop) [Decidable c] {f g : VState → VState}
    (hf : Emits f) (hg : Emits g) : Emits (fun st => if c then f st else g st) := by
  by_cases h : c
  · simpa [h] using hf
  · simpa [h] using hg

theorem emits_foldl {α : Type} (step : VState → α → VState)
    (h : ∀ x, Emits (fun st => step st x)) :
    ∀ xs : List α, Emits (fun st => xs.foldl step st)
  | [] => by simpa using emits_id
  | x :: xs => by
    simp only [List.foldl_cons]
    exact emits_seq (h x) (emits_foldl step h xs)

theorem emits_validate_ingredient (path : String) (ing : List (String × Json)) :
    Emits (fun st => validate_ingredient st path ing) := by
  apply emits_of_frame
  intro st
  cases h1 : hasKey ing "item" <;> cases h2 : hasKey ing "tag" <;> cases h3 : hasKey ing "fluid" <;>
    simp [validate_ingredient, h1, h2, h3, add_error, add_warning, VState.init]

theorem emits_validate_ingredients (path : String) (ings : Json) :
    Emits (fun st => validate_ingredients st path ings) := by
  cases ings <;> simp only [validate_ingredients]
  case obj fields => exact emits_validate_ingredient path fields
  case arr xs =>
    exact emits_seq (emits_ite _ (emits_add_warning _ _) emits_id)
      (emits_foldl _ (fun x => by cases x <;> first
        | exact emits_validate_ingredient _ _
        | exact emits_add_error _ _) xs)
  all_goals exact emits_add_error _ _

theorem emits_validate_result (path : String) (r : Json) :
    Emits (fun st => validate_result st path r) := by
  cases r <;> try exact emits_add_error _ _
  case obj fields =>
    apply emits_of_frame
    intro st
    cases h1 : (hasKey fields "item" || hasKey fields "fluid") <;>
      rcases h2 : getKey? fields "count" with _ | cv <;>
      rcases h3 : getKey? fields "amount" with _ | av <;>
      simp only [validate_result, h1, h2, h3] <;>
      split_ifs <;>
      simp [add_error, VState.init]

theorem emits_validate_results (path : String) (rs : List Json) :
    Emits (fun st => validate_results st path rs) := by
  simp only [validate_results]
  exact emits_seq (emits_ite _ (emits_add_warning _ _) emits_id)
    (emits_foldl _ (fun x => by cases x <;> first
      | exact emits_validate_result _ _
      | exact emits_add_error _ _) rs)

theorem emitsP_of_emits {f : VState → VState} (hf : Emits f) :
    EmitsP (fun st => (f st, none)) := by
  obtain ⟨es, ws, h⟩ := hf
  exact ⟨es, ws, none, fun st => by simp [h]⟩

theorem emitsP_const_exc {g : VState → VState} (e : PyExc) (hg : Emits g) :
    EmitsP (fun st => (g st, some e)) := by
  obtain ⟨es, ws, h⟩ := hg
  exact ⟨es, ws, some e, fun st => by simp [h]⟩

theorem emitsP_usedKeysLoop (path : String) (key : Json) :
    ∀ cs : List Char, EmitsP (fun st => usedKeysLoop st path key cs)
  | [] => ⟨[], [], none, fun st => by cases st; simp [usedKeysLoop]⟩
  | c :: cs => by
    rcases hch : charNotInKey key c with e | b
    · simp only [usedKeysLoop, hch]
      exact emitsP_const_exc e emits_id
    · cases b
      · obtain ⟨es, ws, exc, ih⟩ := emitsP_usedKeysLoop path key cs
        exact ⟨es, ws, exc, fun st => by simp only [usedKeysLoop, hch]; exact ih st⟩
      · obtain ⟨es, ws, exc, ih⟩ := emitsP_usedKeysLoop path key cs
        refine ⟨("[ERROR] " ++ path ++ ": " ++ ("Pattern uses key \x27" ++ c.toString ++ "\x27 but it\x27s not defined in \x27key\x27 object")) :: es, ws, exc, fun st => ?_⟩
        simp only [usedKeysLoop, hch, ih]
        simp [add_error]

theorem emits_unused_step (path : String) (used : List Char) (p : String × Json) :
    Emits (fun st =>
      match p.1.toList with
      | [c] =>
        if used.contains c then st
        else add_warning st path ("Key \x27" ++ p.1 ++ "\x27 is defined but never used in pattern")
      | _ => st) := by
  rcases hp : p.1.toList with _ | ⟨c, _ | ⟨d, t⟩⟩ <;> simp only [hp]
  · exact emits_id
  · exact emits_ite _ emits_id (emits_add_warning _ _)
  · exact emits_id

theorem emitsP_unusedKeysLoop (path : String) (key : Json) (used : List Char) :
    EmitsP (fun st => unusedKeysLoop st path key used) := by
  cases key <;> simp only [unusedKeysLoop]
  case obj fields =>
    obtain ⟨es, ws, h⟩ := emits_foldl _ (fun p => emits_unused_step path used p) fields
    exact ⟨es, ws, none, fun st => by simp only [h]⟩
  all_goals exact emitsP_const_exc _ emits_id

theorem emits_row_step (path : String) (row : Json) :
    Emits (fun st =>
      match row with
      | .str _ => st
      | _ => add_error st path "Pattern row must be a string") := by
  cases row <;> first
    | exact emits_id
    | exact emits_add_error _ _

theorem emitsP_validate_pattern_core (path : String) (recipe : List (String × Json))
    (pattern : List Json) (used : List Char) :
    EmitsP (fun st => validate_pattern_core st path recipe pattern used) := by
  simp only [validate_pattern_core]
  cases hp : pattern.isEmpty
  · simp only [Bool.false_eq_true, if_false]
    obtain ⟨e1, w1, h1⟩ := emits_foldl _ (fun row => emits_row_step path row) pattern
    obtain ⟨e2, w2, exc2, h2⟩ :=
      emitsP_usedKeysLoop path ((getKey? recipe "key").getD (.obj [])) used
    cases exc2
    case none =>
      obtain ⟨e3, w3, exc3, h3⟩ :=
        emitsP_unusedKeysLoop path ((getKey? recipe "key").getD (.obj [])) used
      refine ⟨e1 ++ (e2 ++ e3), w1 ++ (w2 ++ w3), exc3, fun st => ?_⟩
      simp only [h1, h2, after_used_loop, h3]
      simp [List.append_assoc]
    case some e =>
      refine ⟨e1 ++ e2, w1 ++ w2, some e, fun st => ?_⟩
      simp only [h1, h2, after_used_loop]
      simp [List.append_assoc]
  · simp only [eq_self_iff_true, if_true]
    exact emitsP_of_emits (emits_add_error path "Pattern array is empty")

theorem emitsP_validate_pattern (path : String) (recipe : List (String × Json))
    (pattern : List Json) :
    EmitsP (fun st => validate_pattern st path recipe pattern) :=
  emitsP_validate_pattern_core path recipe pattern (usedKeysOf pattern)

theorem emits_mechanical_crafting_tail (path : String) (recipe : List (String × Json)) :
    Emits (fun st => mechanical_crafting_tail st path recipe) := by
  simp only [mechanical_crafting_tail]
  have hres : Emits (fun st =>
      match getKey? recipe "result" with
      | none => add_error st path "Mechanical crafting missing \x27result\x27 field"
      | some r => validate_result st path r) := by
    rcases getKey? recipe "result" with _ | r
    · exact emits_add_error _ _
    · exact emits_validate_result _ _
  have hacc : Emits (fun st =>
      match getKey? recipe "acceptMirrored" with
      | some (.bool _) => st
      | some _ => add_error st path "Field \x27acceptMirrored\x27 must be a boolean"
      | none => st) := by
    rcases getKey? recipe "acceptMirrored" with _ | a
    · exact emits_id
    · cases a <;> first
        | exact emits_id
        | exact emits_add_error _ _
  exact emits_seq hres hacc

theorem emits_mc_key_block (path : String) (recipe : List (String × Json)) :
    Emits (fun st =>
      match getKey? recipe "key" with
      | none => add_error st path "Mechanical crafting missing \x27key\x27 field"
      | some (.obj _) => st
      | some _ => add_error st path "Field \x27key\x27 must be a JSON object") := by
  rcases getKey? recipe "key" with _ | k
  · exact emits_add_error _ _
  · cases k <;> first
      | exact emits_id
      | exact emits_add_error _ _

theorem emitsP_validate_mechanical_crafting (path : String) (recipe : List (String × Json)) :
    EmitsP (fun st => validate_mechanical_crafting st path recipe) := by
  simp only [validate_mechanical_crafting]
  rcases getKey? recipe "pattern" with _ | p
  · exact emitsP_of_emits
      (emits_seq (emits_seq (emits_mc_key_block path recipe) (emits_add_error _ _))
        (emits_mechanical_crafting_tail path recipe))
  · cases p <;> try
      exact emitsP_of_emits
        (emits_seq (emits_seq (emits_mc_key_block path recipe) (emits_add_error _ _))
          (emits_mechanical_crafting_tail path recipe))
    case arr rows =>
      obtain ⟨e0, w0, h0⟩ := emits_mc_key_block path recipe
      obtain ⟨e1, w1, exc1, hpat⟩ := emitsP_validate_pattern path recipe rows
      cases exc1
      case none =>
        obtain ⟨e2, w2, h2⟩ := emits_mechanical_crafting_tail path recipe
        refine ⟨e0 ++ (e1 ++ e2), w0 ++ (w1 ++ w2), none, fun st => ?_⟩
        simp only [h0, hpat, h2]
        simp [List.append_assoc]
      case some e =>
        refine ⟨e0 ++ e1, w0 ++ w1, some e, fun st => ?_⟩
        simp only [h0, hpat]
        simp [List.append_assoc]

theorem emits_validate_cutting (path : String) (recipe : List (String × Json)) :
    Emits (fun st => validate_cutting st path recipe) := by
  simp only [validate_cutting]
  have hA : Emits (fun st =>
      match getKey? recipe "ingredients" with
      | none => add_error st path "Cutting recipe missing \x27ingredients\x27 field"
      | some ings => validate_ingredients st path ings) := by
    rcases getKey? recipe "ingredients" with _ | ings
    · exact emits_add_error _ _
    · exact emits_validate_ingredients _ _
  have hB : Emits (fun st =>
      match getKey? recipe "results" with
      | none => add_error st path "Cutting recipe missing \x27results\x27 field"
      | some (.arr rs) => validate_results st path rs
      | some _ => add_error st path "Field \x27results\x27 must be a JSON array") := by
    rcases getKey? recipe "results" with _ | r
    · exact emits_add_error _ _
    · cases r <;> first
        | exact emits_validate_results _ _
        | exact emits_add_error _ _
  have hC : Emits (fun st =>
      match getKey? recipe "processingTime" with
      | some t => if isNumeric t then st else add_error st path "Field \x27processingTime\x27 must be a number"
      | none => st) := by
    rcases getKey? recipe "processingTime" with _ | t
    · exact emits_id
    · exact emits_ite _ emits_id (emits_add_error _ _)
  exact emits_seq (emits_seq hA hB) hC

theorem emits_validate_mixing (path : String) (recipe : List (String × Json)) :
    Emits (fun st => validate_mixing st path recipe) := by
  simp only [validate_mixing]
  have hA : Emits (fun st =>
      match getKey? recipe "ingredients" with
      | none => add_error st path "Mixing recipe missing \x27ingredients\x27 field"
      | some ings => validate_ingredients st path ings) := by
    rcases getKey? recipe "ingredients" with _ | ings
    · exact emits_add_error _ _
    · exact emits_validate_ingredients _ _
  have hB : Emits (fun st =>
      match getKey? recipe "results" with
      | none => add_error st path "Mixing recipe missing \x27results\x27 field"
      | some (.arr rs) => validate_results st path rs
      | some _ => add_error st path "Field \x27results\x27 must be a JSON array") := by
    rcases getKey? recipe "results" with _ | r
    · exact emits_add_error _ _
    · cases r <;> first
        | exact emits_validate_results _ _
        | exact emits_add_error _ _
  have hC : Emits (fun st =>
      match getKey? recipe "heatRequirement" with
      | some heat => if isValidHeat heat then st else add_error st path ("Invalid heatRequirement: " ++ pyStr heat)
      | none => st) := by
    rcases getKey? recipe "heatRequirement" with _ | heat
    · exact emits_id
    · exact emits_ite _ emits_id (emits_add_error _ _)
  exact emits_seq (emits_seq hA hB) hC

theorem emits_validate_sequenced_assembly (path : String) (recipe : List (String × Json)) :
    Emits (fun st => validate_sequenced_assembly st path recipe) := by
  simp only [validate_sequenced_assembly]
  have hA : Emits (fun st =>
      ["ingredient", "transitionalItem", "sequence", "results", "loops"].foldl
        (fun s f =>
          if hasKey recipe f then s
          else add_error s path ("Sequenced assembly missing \x27" ++ f ++ "\x27 field"))
        st) :=
    emits_foldl _ (fun f => emits_ite _ emits_id (emits_add_error _ _)) _
  have hB : Emits (fun st =>
      match getKey? recipe "sequence" with
      | some (.arr _) => st
      | some _ => add_error st path "Field \x27sequence\x27 must be a JSON array"
      | none => st) := by
    rcases getKey? recipe "sequence" with _ | s
    · exact emits_id
    · cases s <;> first
        | exact emits_id
        | exact emits_add_error _ _
  exact emits_seq hA hB

theorem emits_validate_filling (path : String) (recipe : List (String × Json)) :
    Emits (fun st => validate_filling st path recipe) := by
  apply emits_of_frame
  intro st
  cases h1 : hasKey recipe "ingredients" <;> cases h2 : hasKey recipe "results" <;>
    simp [validate_filling, h1, h2, add_error, VState.init]

theorem emits_validate_emptying (path : String) (recipe : List (String × Json)) :
    Emits (fun st => validate_emptying st path recipe) := by
  apply emits_of_frame
  intro st
  cases h1 : hasKey recipe "ingredients" <;> cases h2 : hasKey recipe "results" <;>
    simp [validate_emptying, h1, h2, add_error, VState.init]

theorem emits_validate_pressing (path : String) (recipe : List (String × Json)) :
    Emits (fun st => validate_pressing st path recipe) := by
  apply emits_of_frame
  intro st
  cases h1 : hasKey recipe "ingredients" <;> cases h2 : hasKey recipe "results" <;>
    simp [validate_pressing, h1, h2, add_error, VState.init]

theorem emits_validate_deploying (path : String) (recipe : List (String × Json)) :
    Emits (fun st => validate_deploying st path recipe) := by
  apply emits_of_frame
  intro st
  cases h1 : hasKey recipe "ingredients" <;> cases h2 : hasKey recipe "results" <;>
    simp [validate_deploying, h1, h2, add_error, VState.init]

theorem emits_validate_vanilla_crafting (path : String) (recipe : List (String × Json)) :
    Emits (fun st => validate_vanilla_crafting st path recipe) := by
  apply emits_of_frame
  intro st
  cases h1 : hasKey recipe "result" <;>
    simp [validate_vanilla_crafting, h1, add_error, VState.init]

theorem emitsP_runValidator (tag : VTag) (path : String) (recipe : List (String × Json)) :
    EmitsP (fun st => runValidator tag st path recipe) := by
  cases tag <;> simp only [runValidator]
  case mechanicalCrafting => exact emitsP_validate_mechanical_crafting path recipe
  case cutting => exact emitsP_of_emits (emits_validate_cutting path recipe)
  case mixing => exact emitsP_of_emits (emits_validate_mixing path recipe)
  case sequencedAssembly => exact emitsP_of_emits (emits_validate_sequenced_assembly path recipe)
  case filling => exact emitsP_of_emits (emits_validate_filling path recipe)
  case emptying => exact emitsP_of_emits (emits_validate_emptying path recipe)
  case pressing => exact emitsP_of_emits (emits_validate_pressing path recipe)
  case deploying => exact emitsP_of_emits (emits_validate_deploying path recipe)
  case vanillaCrafting => exact emitsP_of_emits (emits_validate_vanilla_crafting path recipe)

theorem emits_dispatch_tag (path : String) (fields : List (String × Json)) (tag : VTag) :
    Emits (fun st => dispatch_tag st path fields tag) := by
  obtain ⟨es, ws, exc, hrun⟩ := emitsP_runValidator tag path fields
  cases exc
  case none =>
    exact ⟨es, ws, fun st => by simp only [dispatch_tag, hrun]⟩
  case some e =>
    refine ⟨es ++ ["[ERROR] " ++ path ++ ": " ++ ("Unexpected error: " ++ e.render)], ws, fun st => ?_⟩
    simp only [dispatch_tag, hrun]
    simp [add_error, List.append_assoc]

theorem emits_dispatch_type (path : String) (fields : List (String × Json)) (t : Json) :
    Emits (fun st => dispatch_type st path fields t) := by
  simp only [dispatch_type]
  rcases validators_get t with e | ov
  · exact emits_add_error _ _
  · rcases ov with _ | tag
    · exact emits_add_warning _ _
    · exact emits_dispatch_tag path fields tag

theorem emits_handle_doc (path : String) (doc : Json) :
    Emits (fun st => handle_doc st path doc) := by
  cases doc <;> simp only [handle_doc]
  case obj fields =>
    rcases getKey? fields "type" with _ | t
    · exact emits_add_error _ _
    · exact emits_dispatch_type path fields t
  all_goals exact emits_add_error _ _

theorem emits_validate_recipe_file_try (path : String) (input : FileInput) :
    Emits (fun st => validate_recipe_file_try st path input) := by
  cases input <;> simp only [validate_recipe_file_try]
  case parsed doc => exact emits_handle_doc path doc
  all_goals exact emits_add_error _ _

theorem validate_recipe_file_frame (st : VState) (path : String) (input : FileInput) :
    validate_recipe_file st path input =
      ⟨st.errors ++ (validate_recipe_file VState.init path input).errors,
       st.warnings ++ (validate_recipe_file VState.init path input).warnings,
       st.validated_files + 1⟩ := by
  obtain ⟨es, ws, h⟩ := emits_validate_recipe_file_try path input
  simp [validate_recipe_file, h, VState.init]

theorem runFiles_spec (files : List (String × FileInput)) : ∀ st : VState,
    files.foldl (fun s f => validate_recipe_file s f.1 f.2) st =
      ⟨st.errors ++ (files.map (fun f => (validate_recipe_file VState.init f.1 f.2).errors)).flatten,
       st.warnings ++ (files.map (fun f => (validate_recipe_file VState.init f.1 f.2).warnings)).flatten,
       st.validated_files + files.length⟩ := by
  induction files with
  | nil => intro st; cases st; simp
  | cons f fs ih =>
    intro st
    rw [List.foldl_cons, ih, validate_recipe_file_frame st f.1 f.2]
    simp [List.append_assoc, Nat.add_assoc, Nat.add_comm, Nat.add_left_comm]

/-- C1: the run result of `validate_all` is success exactly when the
collected error count is zero (warnings never matter), the exit code is 0
on success and 1 on failure, and the exit code is 0 exactly when no error
diagnostic was collected (the missing-root case itself records an error). -/
theorem c1_success_iff_zero_errors (rootPath : String) (rootExists : Bool)
    (files : List (String × FileInput)) :
    ((validate_all rootPath rootExists files).2 = true ↔
      (validate_all rootPath rootExists files).1.errors.length = 0)
    ∧ (mainExitCode rootPath rootExists files =
        if (validate_all rootPath rootExists files).2 then 0 else 1)
    ∧ (mainExitCode rootPath rootExists files = 0 ↔
        (validate_all rootPath rootExists files).1.errors = []) := by
  refine ⟨?_, rfl, ?_⟩
  · cases rootExists <;> simp [validate_all, add_error, VState.init]
  · cases rootExists
    · simp [mainExitCode, validate_all, add_error, VState.init]
    · simp only [mainExitCode, validate_all]
      split_ifs with h <;> simp_all [List.length_eq_zero]

/-- C8: when the recipes root directory does not exist, the run stops with
exactly the single global error diagnostic, zero files processed, result
`False`, and exit code 1. -/
theorem c8_missing_root_dir (rootPath : String) (files : List (String × FileInput)) :
    validate_all rootPath false files =
      (⟨["[ERROR] Global: Recipes directory does not exist: " ++ rootPath], [], 0⟩, false)
    ∧ mainExitCode rootPath false files = 1 := by
  constructor
  · simp [validate_all, add_error, VState.init]
    rw [← String.append_assoc]
    rfl
  · simp [mainExitCode, validate_all]

/-- C2: a parsed top-level dict without a `type` field gets exactly one
error diagnostic (citing the missing `type`) and nothing else: no checking
function runs on it. -/
theorem c2_missing_type_field (st : VState) (path : String) (fields : List (String × Json))
    (h : getKey? fields "type" = none) :
    validate_recipe_file st path (FileInput.parsed (Json.obj fields)) =
      add_error { st with validated_files := st.validated_files + 1 } path
        "Missing required field: \x27type\x27" := by
  simp [validate_recipe_file, validate_recipe_file_try, handle_doc, h]

/-- Witness for C2 at a concrete document. -/
theorem c2_missing_type_field_witness :
    validate_recipe_file VState.init "a.json" (FileInput.parsed (Json.obj [("result", Json.null)])) =
      add_error { VState.init with validated_files := VState.init.validated_files + 1 } "a.json"
        "Missing required field: \x27type\x27" :=
  c2_missing_type_field VState.init "a.json" [("result", Json.null)] rfl

/-- C3 counterexample: a document whose `type` field holds an empty list has
a `type` value that
is not one of the ten known discriminant values, yet the run produces zero
warnings and one error for it: `validators.get` raises `TypeError` on the
unhashable key and the broad handler records an error, so the claim
"exactly one Warning is produced" fails. -/
theorem c3_unknown_type_counterexample :
    (validate_recipe_file VState.init "bad_type.json"
        (FileInput.parsed (Json.obj [("type", Json.arr [])]))).warnings = []
    ∧ (validate_recipe_file VState.init "bad_type.json"
        (FileInput.parsed (Json.obj [("type", Json.arr [])]))).errors =
      ["[ERROR] bad_type.json: Unexpected error: unhashable type: \x27list\x27"] := by
  constructor <;> rfl

/-- C3 amended: a document whose `type` value misses in the dispatch table
(`validators_get` returns `ok none`, i.e. any hashable value other than the
ten known strings) gets exactly one warning and no further checks; a
document whose `type` value is unhashable (a list or dict) instead gets
exactly one error from the raised `TypeError`. -/
theorem c3_unknown_type_amended (st : VState) (path : String)
    (fields : List (String × Json)) (t : Json)
    (ht : getKey? fields "type" = some t) :
    (validators_get t = Except.ok none →
      validate_recipe_file st path (FileInput.parsed (Json.obj fields)) =
        add_warning { st with validated_files := st.validated_files + 1 } path
          ("Unknown recipe type: " ++ pyStr t))
    ∧ (∀ e : PyExc, validators_get t = Except.error e →
      validate_recipe_file st path (FileInput.parsed (Json.obj fields)) =
        add_error { st with validated_files := st.validated_files + 1 } path
          ("Unexpected error: " ++ e.render)) := by
  constructor
  · intro hv
    simp [validate_recipe_file, validate_recipe_file_try, handle_doc, ht, dispatch_type, hv]
  · intro e hv
    simp [validate_recipe_file, validate_recipe_file_try, handle_doc, ht, dispatch_type, hv]

/-- Witness for the amended C3 at a concrete unknown (string) type. -/
theorem c3_unknown_type_amended_witness :
    validate_recipe_file VState.init "u.json"
        (FileInput.parsed (Json.obj [("type", Json.str "create:compacting")])) =
      add_warning { VState.init with validated_files := VState.init.validated_files + 1 } "u.json"
        ("Unknown recipe type: " ++ pyStr (Json.str "create:compacting")) :=
  (c3_unknown_type_amended VState.init "u.json" [("type", Json.str "create:compacting")]
    (Json.str "create:compacting") rfl).1 rfl

/-- C5: the ingredients field accepts a single dict (checked directly) or
a list; an empty list is exactly one warning and no error; a dict with none
of `item`/`tag`/`fluid` is exactly one error; a dict with more than one of
them is exactly one warning, not an error. -/
theorem c5_ingredient_shape (st : VState) (path : String) (ing : List (String × Json)) :
    (validate_ingredients st path (Json.arr []) = add_warning st path "Ingredients array is empty")
    ∧ (validate_ingredients st path (Json.obj ing) = validate_ingredient st path ing)
    ∧ (hasKey ing "item" = false → hasKey ing "tag" = false → hasKey ing "fluid" = false →
        validate_ingredient st path ing =
          add_error st path "Ingredient must have \x27item\x27, \x27tag\x27, or \x27fluid\x27 field")
    ∧ (1 < (if hasKey ing "item" then 1 else 0) + (if hasKey ing "tag" then 1 else 0)
          + (if hasKey ing "fluid" then 1 else 0) →
        validate_ingredient st path ing =
          add_warning st path "Ingredient has multiple type fields (item/tag/fluid)") := by
  refine ⟨by simp [validate_ingredients], rfl, ?_, ?_⟩
  · intro h1 h2 h3
    simp [validate_ingredient, h1, h2, h3]
  · intro hcount
    cases h1 : hasKey ing "item" <;> cases h2 : hasKey ing "tag" <;> cases h3 : hasKey ing "fluid" <;>
      simp_all [validate_ingredient]

/-- Witness for C5: a concrete identity-free ingredient errors, a concrete
double-identity ingredient only warns. -/
theorem c5_ingredient_shape_witness :
    validate_ingredient VState.init "w.json" [("name", Json.str "x")] =
      add_error VState.init "w.json" "Ingredient must have \x27item\x27, \x27tag\x27, or \x27fluid\x27 field"
    ∧ validate_ingredient VState.init "w.json" [("item", Json.str "a"), ("tag", Json.str "b")] =
      add_warning VState.init "w.json" "Ingredient has multiple type fields (item/tag/fluid)" :=
  ⟨(c5_ingredient_shape VState.init "w.json" [("name", Json.str "x")]).2.2.1 rfl rfl rfl,
   (c5_ingredient_shape VState.init "w.json" [("item", Json.str "a"), ("tag", Json.str "b")]).2.2.2
     (by decide)⟩

/-- C6: for a result dict, the error lines added are exactly: the missing
`item`/`fluid` error when both are absent, then the non-positive `count`
error when `count` is present, numeric and at most 0, then — independently —
the analogous `amount` error; no warning is added by `validate_result`;
and an empty top-level results list yields exactly one warning. -/
theorem c6_result_shape (st : VState) (path : String) (res : List (String × Json)) :
    ((validate_result st path (Json.obj res)).errors =
      st.errors
      ++ (if hasKey res "item" || hasKey res "fluid" then []
          else ["[ERROR] " ++ path ++ ": " ++ "Result must have \x27item\x27 or \x27fluid\x27 field"])
      ++ (match getKey? res "count" with
          | some v =>
            if isNumeric v && decide (numVal v ≤ 0) then
              ["[ERROR] " ++ path ++ ": " ++ ("Result count must be positive, got: " ++ pyStr v)]
            else []
          | none => [])
      ++ (match getKey? res "amount" with
          | some v =>
            if isNumeric v && decide (numVal v ≤ 0) then
              ["[ERROR] " ++ path ++ ": " ++ ("Result amount must be positive, got: " ++ pyStr v)]
            else []
          | none => []))
    ∧ ((validate_result st path (Json.obj res)).warnings = st.warnings)
    ∧ (validate_results st path [] = add_warning st path "Results array is empty") := by
  refine ⟨?_, ?_, by simp [validate_results]⟩ <;>
  · cases h1 : (hasKey res "item" || hasKey res "fluid") <;>
      rcases h2 : getKey? res "count" with _ | cv <;>
      rcases h3 : getKey? res "amount" with _ | av <;>
      simp only [validate_result, h1, h2, h3] <;>
      split_ifs <;>
      simp [add_error, List.append_assoc]

/-- C10: with `item` present, a `count` (resp. `amount`) field leads to a
diagnostic exactly when its value is numeric — Python counts booleans as
numeric — and at most 0; a present but non-numeric value produces no
diagnostic at all (the state is returned unchanged); in particular
`count: false` is an error rendered as `False`. -/
theorem c10_count_amount_numeric_gate (st : VState) (path : String)
    (res : List (String × Json)) (v : Json)
    (hitem : hasKey res "item" = true) :
    ((getKey? res "count" = some v → getKey? res "amount" = none →
      validate_result st path (Json.obj res) =
        (if isNumeric v && decide (numVal v ≤ 0) then
          add_error st path ("Result count must be positive, got: " ++ pyStr v)
        else st)))
    ∧ ((getKey? res "count" = none → getKey? res "amount" = some v →
      validate_result st path (Json.obj res) =
        (if isNumeric v && decide (numVal v ≤ 0) then
          add_error st path ("Result amount must be positive, got: " ++ pyStr v)
        else st)))
    ∧ (validate_result st path (Json.obj [("item", Json.str "x"), ("count", Json.bool false)]) =
        add_error st path "Result count must be positive, got: False") := by
  refine ⟨?_, ?_, ?_⟩
  · intro h2 h3
    simp only [validate_result, hitem, h2, h3, Bool.true_or, if_true]
  · intro h2 h3
    simp only [validate_result, hitem, h2, h3, Bool.true_or, if_true]
  · simp [validate_result, hasKey, getKey?, add_error, isNumeric, numVal, pyStr]

/-- Witness for C10: a present non-numeric count leaves the state
unchanged (no diagnostic), and `count: false` errors. -/
theorem c10_count_amount_numeric_gate_witness :
    validate_result VState.init "c.json" (Json.obj [("item", Json.str "x"), ("count", Json.str "many")]) =
      VState.init
    ∧ validate_result VState.init "c.json" (Json.obj [("item", Json.str "x"), ("count", Json.bool false)]) =
      add_error VState.init "c.json" "Result count must be positive, got: False" := by
  have h := c10_count_amount_numeric_gate VState.init "c.json"
    [("item", Json.str "x"), ("count", Json.str "many")] (Json.str "many") rfl
  exact ⟨by simpa using h.1 rfl rfl,
    (c10_count_amount_numeric_gate VState.init "c.json" [("item", Json.str "x")]
      Json.null rfl).2.2⟩

/-- C7: over an existing root, the run's diagnostics are exactly the
concatenation, in traversal order, of the diagnostics each file produces
on its own from the fresh state — so one file never aborts the run or
changes another file's diagnostics — and every file is counted; a parse
failure or a read failure yields exactly one error preserving the
underlying message and no warning; and an exception escaping a checking
function is converted into exactly one additional error preserving its
message. -/
theorem c7_per_file_containment (rootPath : String) (files : List (String × FileInput))
    (path m : String) (fields : List (String × Json)) (t : Json) (tag : VTag)
    (e : PyExc) (st2 : VState) :
    ((validate_all rootPath true files).1.errors =
        (files.map (fun f => (validate_recipe_file VState.init f.1 f.2).errors)).flatten)
    ∧ ((validate_all rootPath true files).1.warnings =
        (files.map (fun f => (validate_recipe_file VState.init f.1 f.2).warnings)).flatten)
    ∧ ((validate_all rootPath true files).1.validated_files = files.length)
    ∧ ((validate_recipe_file VState.init path (FileInput.parseError m)).errors =
        ["[ERROR] " ++ path ++ ": " ++ ("Failed to parse JSON: " ++ m)]
      ∧ (validate_recipe_file VState.init path (FileInput.parseError m)).warnings = [])
    ∧ ((validate_recipe_file VState.init path (FileInput.readError m)).errors =
        ["[ERROR] " ++ path ++ ": " ++ ("Unexpected error: " ++ m)]
      ∧ (validate_recipe_file VState.init path (FileInput.readError m)).warnings = [])
    ∧ (getKey? fields "type" = some t → validators_get t = Except.ok (some tag) →
        runValidator tag ⟨[], [], 1⟩ path fields = (st2, some e) →
        validate_recipe_file VState.init path (FileInput.parsed (Json.obj fields)) =
          add_error st2 path ("Unexpected error: " ++ e.render)) := by
  have key : List.foldl (fun s f => validate_recipe_file s f.1 f.2) VState.init files =
      ⟨(files.map (fun f => (validate_recipe_file VState.init f.1 f.2).errors)).flatten,
       (files.map (fun f => (validate_recipe_file VState.init f.1 f.2).warnings)).flatten,
       files.length⟩ := by
    rw [runFiles_spec files VState.init]
    simp [VState.init]
  refine ⟨?_, ?_, ?_, ?_, ?_, ?_⟩
  · simp [validate_all, key]
  · simp [validate_all, key]
  · simp [validate_all, key]
  · constructor <;> simp [validate_recipe_file, validate_recipe_file_try, add_error, VState.init]
  · constructor <;> simp [validate_recipe_file, validate_recipe_file_try, add_error, VState.init]
  · intro ht hv hrun
    simp [validate_recipe_file, validate_recipe_file_try, handle_doc, ht, dispatch_type, hv,
      dispatch_tag, VState.init, hrun]

/-- Witness for C7: a mechanical-crafting document whose `key` is the
number 5 makes the pattern cross-check raise `TypeError`; the handler adds
exactly one more error after the one already collected. -/
theorem c7_per_file_containment_witness :
    validate_recipe_file VState.init "p"
        (FileInput.parsed (Json.obj [("type", Json.str "create:mechanical_crafting"),
          ("key", Json.int 5), ("pattern", Json.arr [Json.str "a"]),
          ("result", Json.obj [("item", Json.str "x")])])) =
      add_error ⟨["[ERROR] p: Field \x27key\x27 must be a JSON object"], [], 1⟩ "p"
        ("Unexpected error: " ++ (PyExc.notIterable "int").render) :=
  (c7_per_file_containment "r" [] "p" "ignored"
    [("type", Json.str "create:mechanical_crafting"), ("key", Json.int 5),
     ("pattern", Json.arr [Json.str "a"]), ("result", Json.obj [("item", Json.str "x")])]
    (Json.str "create:mechanical_crafting") VTag.mechanicalCrafting
    (PyExc.notIterable "int")
    ⟨["[ERROR] p: Field \x27key\x27 must be a JSON object"], [], 1⟩).2.2.2.2.2 rfl rfl rfl

theorem mem_dedupFirst (c : Char) : ∀ (l seen : List Char),
    c ∈ dedupFirst seen l ↔ (c ∈ l ∧ seen.contains c = false)
  | [], seen => by simp [dedupFirst]
  | d :: cs, seen => by
    by_cases hcd : c = d
    · subst hcd
      by_cases h : c ∈ seen <;> simp [dedupFirst, h, mem_dedupFirst c cs]
    · by_cases h : d ∈ seen <;> simp [dedupFirst, h, mem_dedupFirst c cs, hcd]

theorem mem_rowChars (c : Char) : ∀ rows : List Json,
    c ∈ rowChars rows ↔ ∃ s, Json.str s ∈ rows ∧ c ∈ s.toList := by
  intro rows
  induction rows with
  | nil => simp [rowChars]
  | cons r rest ih => cases r <;> simp [rowChars, ih]

theorem mem_usedKeysOf (c : Char) (rows : List Json) :
    c ∈ usedKeysOf rows ↔ ((∃ s, Json.str s ∈ rows ∧ c ∈ s.toList) ∧ c ≠ ' ') := by
  simp [usedKeysOf, mem_dedupFirst, List.mem_filter, mem_rowChars, and_comm]

theorem usedKeysLoop_obj_exc (path : String) (kf : List (String × Json)) :
    ∀ (cs : List Char) (st : VState), (usedKeysLoop st path (Json.obj kf) cs).2 = none
  | [], st => by simp [usedKeysLoop]
  | c :: cs, st => by
    have hch : charNotInKey (Json.obj kf) c = .ok (!(hasKey kf c.toString)) := by
      simp [charNotInKey]
    cases hkc : hasKey kf c.toString <;> simp only [hkc] at hch <;>
      simp only [usedKeysLoop, hch] <;>
      exact usedKeysLoop_obj_exc path kf cs _

theorem usedKeysLoop_obj_mem_errors (path : String) (kf : List (String × Json)) (c : Char)
    (hc : hasKey kf c.toString = false) :
    ∀ (cs : List Char) (st : VState), c ∈ cs →
      ("[ERROR] " ++ path ++ ": " ++ ("Pattern uses key \x27" ++ c.toString ++ "\x27 but it\x27s not defined in \x27key\x27 object"))
        ∈ (usedKeysLoop st path (Json.obj kf) cs).1.errors
  | [], st, h => absurd h (List.not_mem_nil c)
  | d :: cs, st, h => by
    rcases List.mem_cons.mp h with hcd | hmem
    · subst hcd
      have hch : charNotInKey (Json.obj kf) c = .ok true := by simp [charNotInKey, hc]
      simp only [usedKeysLoop, hch]
      obtain ⟨es, ws, exc, hP⟩ := emitsP_usedKeysLoop path (Json.obj kf) cs
      simp only [hP]
      simp [add_error]
    · have hch : charNotInKey (Json.obj kf) d = .ok (!(hasKey kf d.toString)) := by
        simp [charNotInKey]
      cases hkd : hasKey kf d.toString <;> simp only [hkd] at hch <;>
        simp only [usedKeysLoop, hch] <;>
        exact usedKeysLoop_obj_mem_errors path kf c hc cs _ hmem

theorem warnFold_mem (path : String) (used : List Char) (k : String) (v : Json) (c : Char)
    (hk : k.toList = [c]) (hused : used.contains c = false) :
    ∀ (kf : List (String × Json)) (st : VState), (k, v) ∈ kf →
      ("[WARNING] " ++ path ++ ": " ++ ("Key \x27" ++ k ++ "\x27 is defined but never used in pattern"))
        ∈ (kf.foldl
            (fun s p =>
              match p.1.toList with
              | [c] =>
                if used.contains c then s
                else add_warning s path ("Key \x27" ++ p.1 ++ "\x27 is defined but never used in pattern")
              | _ => s)
            st).warnings
  | [], st, h => absurd h (List.not_mem_nil _)
  | p :: kf, st, h => by
    rcases List.mem_cons.mp h with hp | hmem
    · obtain ⟨es, ws, hF⟩ := emits_foldl _ (fun q => emits_unused_step path used q) kf
      subst hp
      simp only [List.foldl_cons, hk, hused]
      simp only [Bool.false_eq_true, if_false]
      simp only [hF]
      simp [add_warning]
    · simp only [List.foldl_cons]
      exact warnFold_mem path used k v c hk hused kf _ hmem

theorem after_used_loop_none (path : String) (key : Json) (used : List Char)
    (p : VState × Option PyExc) (hp : p.2 = none) :
    after_used_loop path key used p = unusedKeysLoop p.1 path key used := by
  rcases p with ⟨s, exc⟩
  cases exc
  · rfl
  · simp at hp

/-- C4: for mechanical-crafting pattern checking with a dict-valued `key`
field: an empty pattern list yields exactly the one "Pattern array is
empty" error and nothing else (the cross-check does not run); otherwise
every non-blank character of a string row that is not a key of the `key`
dict contributes an error citing it, and every one-character key of the
`key` dict that occurs in no string row contributes an unused-key
warning. -/
theorem c4_pattern_key_cross_check (st : VState) (path : String)
    (recipe : List (String × Json)) (rows : List Json) (kf : List (String × Json))
    (hkey : getKey? recipe "key" = some (Json.obj kf)) :
    (validate_pattern st path recipe [] = (add_error st path "Pattern array is empty", none))
    ∧ (∀ c s, Json.str s ∈ rows → c ∈ s.toList → c ≠ ' ' → hasKey kf c.toString = false →
        ("[ERROR] " ++ path ++ ": " ++ ("Pattern uses key \x27" ++ c.toString ++ "\x27 but it\x27s not defined in \x27key\x27 object"))
          ∈ (validate_pattern st path recipe rows).1.errors)
    ∧ (∀ k v c, (k, v) ∈ kf → k.toList = [c] →
        (∀ s, Json.str s ∈ rows → c ∉ s.toList) → rows ≠ [] →
        ("[WARNING] " ++ path ++ ": " ++ ("Key \x27" ++ k ++ "\x27 is defined but never used in pattern"))
          ∈ (validate_pattern st path recipe rows).1.warnings) := by
  refine ⟨by simp [validate_pattern, validate_pattern_core], ?_, ?_⟩
  · intro c s hs hcs hblank hck
    have hcu : c ∈ usedKeysOf rows := (mem_usedKeysOf c rows).mpr ⟨⟨s, hs, hcs⟩, hblank⟩
    have hne : rows.isEmpty = false := by
      cases rows
      · simp at hs
      · rfl
    simp only [validate_pattern, validate_pattern_core, hkey, Option.getD_some, hne,
      Bool.false_eq_true, if_false]
    have hexc := usedKeysLoop_obj_exc path kf (usedKeysOf rows)
    rw [after_used_loop_none path (Json.obj kf) (usedKeysOf rows) _ (hexc _)]
    obtain ⟨e3, w3, exc3, h3⟩ := emitsP_unusedKeysLoop path (Json.obj kf) (usedKeysOf rows)
    simp only [h3]
    exact List.mem_append_left _
      (usedKeysLoop_obj_mem_errors path kf c hck (usedKeysOf rows) _ hcu)
  · intro k v c hkv hk hnouse hrne
    have hne : rows.isEmpty = false := by
      cases rows
      · exact absurd rfl hrne
      · rfl
    have hcu : c ∉ usedKeysOf rows := by
      intro hcu
      rcases (mem_usedKeysOf c rows).mp hcu with ⟨⟨s, hs, hcs⟩, _⟩
      exact hnouse s hs hcs
    have hused : (usedKeysOf rows).contains c = false := by
      simp [hcu]
    simp only [validate_pattern, validate_pattern_core, hkey, Option.getD_some, hne,
      Bool.false_eq_true, if_false]
    have hexc := usedKeysLoop_obj_exc path kf (usedKeysOf rows)
    rw [after_used_loop_none path (Json.obj kf) (usedKeysOf rows) _ (hexc _)]
    simp only [unusedKeysLoop]
    exact warnFold_mem path (usedKeysOf rows) k v c hk hused kf _ hkv

/-- Witness for C4 at a concrete one-row pattern (the row being the
two-character string ab) with keys `a` and `q`:
the undefined `b` errors, the unused `q` warns. -/
theorem c4_pattern_key_cross_check_witness :
    ("[ERROR] " ++ "p" ++ ": " ++ ("Pattern uses key \x27" ++ ('b').toString ++ "\x27 but it\x27s not defined in \x27key\x27 object"))
      ∈ (validate_pattern VState.init "p"
          [("key", Json.obj [("a", Json.str "i"), ("q", Json.str "j")])] [Json.str "ab"]).1.errors
    ∧ ("[WARNING] " ++ "p" ++ ": " ++ ("Key \x27" ++ "q" ++ "\x27 is defined but never used in pattern"))
      ∈ (validate_pattern VState.init "p"
          [("key", Json.obj [("a", Json.str "i"), ("q", Json.str "j")])] [Json.str "ab"]).1.warnings :=
  ⟨(c4_pattern_key_cross_check VState.init "p"
      [("key", Json.obj [("a", Json.str "i"), ("q", Json.str "j")])] [Json.str "ab"]
      [("a", Json.str "i"), ("q", Json.str "j")] rfl).2.1 'b' "ab"
      (List.mem_cons_self _ _) (by decide) (by decide) rfl,
   (c4_pattern_key_cross_check VState.init "p"
      [("key", Json.obj [("a", Json.str "i"), ("q", Json.str "j")])] [Json.str "ab"]
      [("a", Json.str "i"), ("q", Json.str "j")] rfl).2.2 "q" (Json.str "j") 'q'
      (List.mem_cons_of_mem _ (List.mem_cons_self _ _)) rfl
      (by intro s hs; simp at hs; subst hs; decide) (by simp)⟩

/-- C9 (demonstration of the defect): the relative order of the two
"Pattern uses key" error lines depends on the iteration order of the
Python set `used_keys`.  Both `['A', 'B']` and `['B', 'A']` enumerate the
same set for the pattern `["AB"]` with an empty key dict — `usedKeysOf`
computes exactly that set in one fixed order — yet the two orders produce
different error lists.  Python randomizes string hashes per process, so
the set's iteration order, and with it the byte-level diagnostic output,
can differ between two runs over the same unchanged directory. -/
theorem c9_set_iteration_order_observable :
    ((validate_pattern_core VState.init "p" [("key", Json.obj [])] [Json.str "AB"] ['A', 'B']).1.errors
      ≠ (validate_pattern_core VState.init "p" [("key", Json.obj [])] [Json.str "AB"] ['B', 'A']).1.errors)
    ∧ List.Perm ['A', 'B'] ['B', 'A']
    ∧ usedKeysOf [Json.str "AB"] = ['A', 'B'] := by
  refine ⟨by decide, by decide, by decide⟩
